import Mathlib

/-!
Verification of the Omnicomm LLS protocol driver specification for the
ioBroker.omnicomm-lls adapter.

The repository ships the admin configuration page (`admin/admin.js`), the
translation dictionary and the package manifest; the protocol driver itself
(frame codec, request cycle, polling scheduler) is described by the design
specification and by the fixtures in `.github/copilot-instructions.md`
(`MOCK_SENSOR_RESPONSES`, the json-config bounds for the sensor address).
The driver components are therefore modelled from the spec, faithful to its
words; the admin page is embedded directly from `admin/admin.js`.
-/

set_option maxRecDepth 20000

/-! ## CRC-16 (Modbus variant)

Modelled from the spec: the 16-bit checksum "computed over all preceding
bytes using the protocol's specified polynomial/algorithm (CRC-16,
reflected, with the standard initial register value used by the sensor
family)".  The sensor family's protocol is "Modbus-like" (spec §1, adapter
doc), and the repository's own fixture `MOCK_SENSOR_RESPONSES.error =
[0x01, 0x83, 0x02, 0xC0, 0xF1]` carries exactly the CRC-16/MODBUS value
(reflected polynomial 0xA001, initial register 0xFFFF, transmitted low
byte first), which pins the variant. -/

/-- One reflected CRC shift step: if the low bit is set, shift right and
fold in the reflected polynomial 0xA001, else just shift right. -/
def crcShiftStep (s : Nat) : Nat :=
  if s % 2 = 1 then (s / 2) ^^^ 0xA001 else s / 2

/-- Absorb one byte into the running CRC register: XOR it in, then run
eight shift steps. -/
def crcByteStep (s b : Nat) : Nat :=
  crcShiftStep (crcShiftStep (crcShiftStep (crcShiftStep
    (crcShiftStep (crcShiftStep (crcShiftStep (crcShiftStep (s ^^^ b))))))))

/-- CRC-16/MODBUS of a byte list: fold from the initial register 0xFFFF. -/
def crc16 (bytes : List Nat) : Nat :=
  bytes.foldl crcByteStep 0xFFFF

/-! ## Frame codec

Modelled from the spec (§4.1, §6): `RequestFrame =
[address:1][command:1][payload:0..N][checksum:2, low byte first]`;
`encodeRequest` constrains the address to [1,247] (also the json-config
bounds `"min": 1, "max": 247` for the sensor address) and the payload
length to the command's fixed schema; `tryDecodeResponse` checks, in
order, completeness, the leading address byte, the command echo byte and
the trailing checksum. -/

/-- Encoding failures: "Fails with `EncodingError` if address or payload
size is out of range"; a command outside the protocol's fixed set is also
refused. -/
inductive EncodingError where
  | addressOutOfRange
  | unknownCommand
  | payloadSizeMismatch
deriving DecidableEq, Repr

/-- Modelled from the spec: the fixed command set of the sensor protocol
with each command's fixed request-payload length and fixed
response-payload length.  The only command code evidenced by the
repository (the spec's monitoring example `[0x01, 0x03, 0x00, 0x00,
<CRC16>]` and all `MOCK_SENSOR_RESPONSES` fixtures) is 0x03, the
Modbus-like data read, with a 2-byte request payload (register selector)
and a 3-byte response payload (byte count plus two data bytes). -/
def commandSchema (c : Nat) : Option (Nat × Nat) :=
  if c = 3 then some (2, 3) else none

/-- Build a request frame: `[address][command][payload][crc lo][crc hi]`,
with the CRC-16 computed over all preceding bytes and appended low byte
first; fail if the address is outside [1,247], the command is unknown, or
the payload length does not match the command's schema. -/
def encodeRequest (address command : Nat) (payload : List Nat) :
    Except EncodingError (List Nat) :=
  if address < 1 ∨ 247 < address then .error .addressOutOfRange
  else
    match commandSchema command with
    | none => .error .unknownCommand
    | some s =>
      if payload.length ≠ s.1 then .error .payloadSizeMismatch
      else
        .ok (address :: command :: payload ++
          [crc16 (address :: command :: payload) % 256,
           crc16 (address :: command :: payload) / 256])

/-- A validated response frame (only produced after the address,
command-echo and checksum checks all pass). -/
structure ResponseFrame where
  address : Nat
  command : Nat
  payload : List Nat
deriving DecidableEq, Repr

/-- Result of one decode attempt over the accumulated receive buffer. -/
inductive DecodeResult where
  | incomplete
  | addressMismatch
  | unexpectedCommand
  | checksumFailure
  | ok (frame : ResponseFrame) (consumed : Nat)
deriving DecidableEq, Repr

/-- Decode the accumulated bytes of one receive window.  `expLen` is the
expected payload length derived from the command that was sent.  In spec
order: fewer bytes than a full frame signal `incomplete`; then the
leading address byte is checked, then the command echo byte, then the
trailing 2-byte checksum (stored low byte first) is compared against the
CRC-16 recomputed over all bytes preceding it.  On success the validated
frame and the count of consumed bytes are returned; trailing extra bytes
are discarded. -/
def tryDecodeResponse (expAddr expCmd expLen : Nat) (buffer : List Nat) :
    DecodeResult :=
  if buffer.length < expLen + 4 then .incomplete
  else if buffer.getD 0 0 ≠ expAddr then .addressMismatch
  else if buffer.getD 1 0 ≠ expCmd then .unexpectedCommand
  else if buffer.getD (expLen + 2) 0 + 256 * buffer.getD (expLen + 3) 0 ≠
      crc16 (buffer.take (expLen + 2)) then .checksumFailure
  else .ok ⟨expAddr, expCmd, (buffer.drop 2).take expLen⟩ (expLen + 4)

/-- Flip bit `j` of a byte. -/
def flipBit (x j : Nat) : Nat := x ^^^ 2 ^ j

/-! ### CRC register facts

The CRC register stays below 2^16, each shift step is injective on
16-bit states, and changing a single byte of the input changes the CRC.
These carry the single-corruption-detection property of the codec. -/

theorem crcShiftStep_lt {s : Nat} (hs : s < 65536) : crcShiftStep s < 65536 := by
  unfold crcShiftStep
  split
  · have h1 : s / 2 < 2 ^ 16 := by norm_num; omega
    have h2 : (0xA001 : Nat) < 2 ^ 16 := by norm_num
    have := Nat.xor_lt_two_pow h1 h2
    norm_num at this ⊢
    exact this
  · omega

theorem crcShiftStep_testBit {s : Nat} (hs : s < 65536) :
    (crcShiftStep s).testBit 15 = decide (s % 2 = 1) := by
  unfold crcShiftStep
  have hlt : s / 2 < 2 ^ 15 := by norm_num; omega
  have hbit : (s / 2).testBit 15 = false := Nat.testBit_lt_two_pow hlt
  split
  · next h =>
    rw [Nat.testBit_xor, hbit]
    simp [h]
    decide
  · next h =>
    rw [hbit]
    simp [h]

theorem crcShiftStep_inj {s t : Nat} (hs : s < 65536) (ht : t < 65536)
    (h : crcShiftStep s = crcShiftStep t) : s = t := by
  have hbit := crcShiftStep_testBit hs
  rw [h, crcShiftStep_testBit ht] at hbit
  have hpar : s % 2 = t % 2 := by
    rcases Nat.mod_two_eq_zero_or_one s with h1 | h1 <;>
      rcases Nat.mod_two_eq_zero_or_one t with h2 | h2 <;>
        simp [h1, h2] at hbit ⊢
  unfold crcShiftStep at h
  rcases Nat.mod_two_eq_zero_or_one s with h1 | h1
  · rw [if_neg (by omega), if_neg (by omega : ¬ t % 2 = 1)] at h
    omega
  · rw [if_pos h1, if_pos (by omega : t % 2 = 1)] at h
    have : s / 2 = t / 2 := by
      have := congrArg (fun x => x ^^^ 0xA001) h
      simpa [Nat.xor_cancel_right] using this
    omega

theorem crcByteStep_lt {s b : Nat} (hs : s < 65536) (hb : b < 65536) :
    crcByteStep s b < 65536 := by
  have h0 : s ^^^ b < 65536 := by
    have h1 : s < 2 ^ 16 := by norm_num; omega
    have h2 : b < 2 ^ 16 := by norm_num; omega
    have := Nat.xor_lt_two_pow h1 h2
    norm_num at this ⊢
    exact this
  unfold crcByteStep
  exact crcShiftStep_lt (crcShiftStep_lt (crcShiftStep_lt (crcShiftStep_lt
    (crcShiftStep_lt (crcShiftStep_lt (crcShiftStep_lt (crcShiftStep_lt h0)))))))

theorem crcByteStep_inj_state {s t b : Nat} (hs : s < 65536) (ht : t < 65536)
    (hb : b < 65536) (h : crcByteStep s b = crcByteStep t b) : s = t := by
  have h0s : s ^^^ b < 65536 := by
    have h1 : s < 2 ^ 16 := by norm_num; omega
    have h2 : b < 2 ^ 16 := by norm_num; omega
    have := Nat.xor_lt_two_pow h1 h2
    norm_num at this ⊢; exact this
  have h0t : t ^^^ b < 65536 := by
    have h1 : t < 2 ^ 16 := by norm_num; omega
    have h2 : b < 2 ^ 16 := by norm_num; omega
    have := Nat.xor_lt_two_pow h1 h2
    norm_num at this ⊢; exact this
  unfold crcByteStep at h
  have l1 := crcShiftStep_lt h0s
  have l2 := crcShiftStep_lt l1
  have l3 := crcShiftStep_lt l2
  have l4 := crcShiftStep_lt l3
  have l5 := crcShiftStep_lt l4
  have l6 := crcShiftStep_lt l5
  have l7 := crcShiftStep_lt l6
  have m1 := crcShiftStep_lt h0t
  have m2 := crcShiftStep_lt m1
  have m3 := crcShiftStep_lt m2
  have m4 := crcShiftStep_lt m3
  have m5 := crcShiftStep_lt m4
  have m6 := crcShiftStep_lt m5
  have m7 := crcShiftStep_lt m6
  have hx : s ^^^ b = t ^^^ b :=
    crcShiftStep_inj h0s h0t (crcShiftStep_inj l1 m1 (crcShiftStep_inj l2 m2
      (crcShiftStep_inj l3 m3 (crcShiftStep_inj l4 m4 (crcShiftStep_inj l5 m5
        (crcShiftStep_inj l6 m6 (crcShiftStep_inj l7 m7 h)))))))
  have := congrArg (fun x => x ^^^ b) hx
  simpa [Nat.xor_cancel_right] using this

theorem crcByteStep_inj_byte {s b b' : Nat} (hs : s < 65536) (hb : b < 65536)
    (hb' : b' < 65536) (hne : b ≠ b') : crcByteStep s b ≠ crcByteStep s b' := by
  intro h
  apply hne
  have h0s : s ^^^ b < 65536 := by
    have h1 : s < 2 ^ 16 := by norm_num; omega
    have h2 : b < 2 ^ 16 := by norm_num; omega
    have := Nat.xor_lt_two_pow h1 h2
    norm_num at this ⊢; exact this
  have h0t : s ^^^ b' < 65536 := by
    have h1 : s < 2 ^ 16 := by norm_num; omega
    have h2 : b' < 2 ^ 16 := by norm_num; omega
    have := Nat.xor_lt_two_pow h1 h2
    norm_num at this ⊢; exact this
  unfold crcByteStep at h
  have l1 := crcShiftStep_lt h0s
  have l2 := crcShiftStep_lt l1
  have l3 := crcShiftStep_lt l2
  have l4 := crcShiftStep_lt l3
  have l5 := crcShiftStep_lt l4
  have l6 := crcShiftStep_lt l5
  have l7 := crcShiftStep_lt l6
  have m1 := crcShiftStep_lt h0t
  have m2 := crcShiftStep_lt m1
  have m3 := crcShiftStep_lt m2
  have m4 := crcShiftStep_lt m3
  have m5 := crcShiftStep_lt m4
  have m6 := crcShiftStep_lt m5
  have m7 := crcShiftStep_lt m6
  have hx : s ^^^ b = s ^^^ b' :=
    crcShiftStep_inj h0s h0t (crcShiftStep_inj l1 m1 (crcShiftStep_inj l2 m2
      (crcShiftStep_inj l3 m3 (crcShiftStep_inj l4 m4 (crcShiftStep_inj l5 m5
        (crcShiftStep_inj l6 m6 (crcShiftStep_inj l7 m7 h)))))))
  have := congrArg (fun x => s ^^^ x) hx
  simpa [← Nat.xor_assoc, Nat.xor_self, Nat.zero_xor] using this

theorem crcFold_lt {bytes : List Nat} {s : Nat} (hs : s < 65536)
    (hb : ∀ b ∈ bytes, b < 256) : bytes.foldl crcByteStep s < 65536 := by
  induction bytes generalizing s with
  | nil => exact hs
  | cons x xs ih =>
    have hx : x < 256 := hb x (by simp)
    exact ih (crcByteStep_lt hs (by omega)) (fun b h => hb b (by simp [h]))

theorem crcFold_inj_state {bytes : List Nat} {s t : Nat} (hs : s < 65536)
    (ht : t < 65536) (hb : ∀ b ∈ bytes, b < 256)
    (h : bytes.foldl crcByteStep s = bytes.foldl crcByteStep t) : s = t := by
  induction bytes generalizing s t with
  | nil => exact h
  | cons x xs ih =>
    have hx : x < 256 := hb x (by simp)
    have hstep := ih (crcByteStep_lt hs (by omega)) (crcByteStep_lt ht (by omega))
      (fun b hm => hb b (by simp [hm])) h
    exact crcByteStep_inj_state hs ht (by omega) hstep

theorem crc16_lt {bytes : List Nat} (hb : ∀ b ∈ bytes, b < 256) :
    crc16 bytes < 65536 :=
  crcFold_lt (by norm_num) hb

/-- Changing a single byte of the input changes the CRC-16. -/
theorem crc16_ne_of_byte_ne {pre suf : List Nat} {b b' : Nat}
    (hpre : ∀ x ∈ pre, x < 256) (hsuf : ∀ x ∈ suf, x < 256)
    (hb : b < 256) (hb' : b' < 256) (hne : b ≠ b') :
    crc16 (pre ++ b :: suf) ≠ crc16 (pre ++ b' :: suf) := by
  intro h
  unfold crc16 at h
  rw [List.foldl_append, List.foldl_append] at h
  simp only [List.foldl_cons] at h
  have hsl : pre.foldl crcByteStep 0xFFFF < 65536 := crcFold_lt (by norm_num) hpre
  have hcb : crcByteStep (pre.foldl crcByteStep 0xFFFF) b =
      crcByteStep (pre.foldl crcByteStep 0xFFFF) b' :=
    crcFold_inj_state (crcByteStep_lt hsl (by omega)) (crcByteStep_lt hsl (by omega))
      hsuf h
  exact crcByteStep_inj_byte hsl (by omega) (by omega) hne hcb

/-! ### Sanity checks on concrete frames -/

example : crc16 [0x01, 0x83, 0x02] = 0xF1C0 := by decide

example : crc16 [0x01, 0x03, 0x00, 0x00] = 0xD8F1 := by decide

example : encodeRequest 1 3 [0, 0] = .ok [1, 3, 0, 0, 0xF1, 0xD8] := by rfl

example : tryDecodeResponse 1 3 2 [1, 3, 0, 0, 0xF1, 0xD8] =
    .ok ⟨1, 3, [0, 0]⟩ 6 := by decide

example : tryDecodeResponse 1 3 2 [1, 3, 0, 1, 0xF1, 0xD8] =
    .checksumFailure := by decide

example : tryDecodeResponse 1 3 2 [2, 3, 0, 0, 0xF1, 0xD8] =
    .addressMismatch := by decide

/-! ## Request cycle

Modelled from the spec (§4.3): `execute(address, command, payload,
responseTimeoutMs, maxRetries)` encodes and writes the request, then
awaits a response window.  The transport is abstracted as `arrivals`,
mapping each attempt number to the bytes (if any) that arrived within
`responseTimeoutMs` of that attempt; `none` means no bytes arrived and
the attempt times out.  Retry policy: timeouts, incomplete windows and
checksum failures are retried while retries remain; an address or
command mismatch is retried at most once (surfaced on the second
occurrence); a decoded valid frame completes the cycle.  The list of
frames written to the bus is returned alongside the outcome. -/

/-- Per-address failure classification of one poll cycle. -/
inductive FailureKind where
  | timedOut
  | checksumFailure
  | addressMismatch
  | unexpectedCommand
  | encodingError
deriving DecidableEq, Repr

/-- Per-address outcome of one poll cycle: a validated measurement frame
or a classified failure. -/
inductive PollCycleResult where
  | measurement (frame : ResponseFrame)
  | failure (kind : FailureKind)
deriving DecidableEq, Repr

/-- Classification of one attempt's receive window: terminally `done`
(a measurement, or an address/command mismatch seen for the second
time — "surfaces as failure after the second occurrence"), or
`retryable` with the failure kind to report when no retries remain and
the updated mismatch flag. -/
inductive AttemptClass where
  | done (r : PollCycleResult)
  | retryable (kind : FailureKind) (newMismatch : Bool)
deriving DecidableEq, Repr

/-- Classify what one receive window produced.  No bytes within the
response timeout, or only an incomplete frame, resolve the attempt to a
timeout; a checksum failure is transient bus noise and retryable; an
address or command mismatch is retryable only the first time. -/
def classifyWindow (expAddr expCmd expLen : Nat) (window : Option (List Nat))
    (mismatchSeen : Bool) : AttemptClass :=
  match window with
  | none => .retryable .timedOut mismatchSeen
  | some buf =>
    match tryDecodeResponse expAddr expCmd expLen buf with
    | .ok f _ => .done (.measurement f)
    | .incomplete => .retryable .timedOut mismatchSeen
    | .checksumFailure => .retryable .checksumFailure mismatchSeen
    | .addressMismatch =>
      if mismatchSeen then .done (.failure .addressMismatch)
      else .retryable .addressMismatch true
    | .unexpectedCommand =>
      if mismatchSeen then .done (.failure .unexpectedCommand)
      else .retryable .unexpectedCommand true

/-- Attempt loop of one request cycle.  `remaining` counts the retries
still available, `mismatchSeen` records whether an address/command
mismatch already occurred once.  Each attempt re-sends the same request
frame; the outcome is returned together with the frames written to the
bus, in order. -/
def executeAttempts (expAddr expCmd expLen : Nat) (frame : List Nat)
    (arrivals : Nat → Option (List Nat)) :
    Nat → Nat → Bool → PollCycleResult × List (List Nat)
  | attempt, 0, mismatchSeen =>
    match classifyWindow expAddr expCmd expLen (arrivals attempt) mismatchSeen with
    | .done r => (r, [frame])
    | .retryable kind _ => (.failure kind, [frame])
  | attempt, remaining + 1, mismatchSeen =>
    match classifyWindow expAddr expCmd expLen (arrivals attempt) mismatchSeen with
    | .done r => (r, [frame])
    | .retryable _ newMismatch =>
      let rest := executeAttempts expAddr expCmd expLen frame arrivals
        (attempt + 1) remaining newMismatch
      (rest.1, frame :: rest.2)

/-- Execute one write-then-await-response exchange with a sensor, with
bounded retries.  An encoding failure is a programmer error: nothing is
written and the cycle fails immediately. -/
def RequestCycle.execute (address command : Nat) (payload : List Nat)
    (expLen maxRetries : Nat) (arrivals : Nat → Option (List Nat)) :
    PollCycleResult × List (List Nat) :=
  match encodeRequest address command payload with
  | .error _ => (.failure .encodingError, [])
  | .ok frame => executeAttempts address command expLen frame arrivals 0 maxRetries false

/-! ## Polling scheduler

Modelled from the spec (§4.4, §5): for the configured ordered list of
sensor addresses, one round executes `RequestCycle` sequentially for
each address — never concurrently, the bus is half-duplex — yielding one
`PollCycleResult` per address; one address's failure never aborts the
round.  `env` gives each address's transport behaviour (its per-attempt
arrivals). -/

/-- One poll round: per-address results in configured order. -/
def pollRound (command : Nat) (payload : List Nat) (expLen maxRetries : Nat)
    (addrs : List Nat) (env : Nat → Nat → Option (List Nat)) :
    List (Nat × PollCycleResult) :=
  match addrs with
  | [] => []
  | a :: rest =>
    (a, (RequestCycle.execute a command payload expLen maxRetries (env a)).1) ::
      pollRound command payload expLen maxRetries rest env

/-- Chronological trace of bus writes during one round: each entry is the
address whose exchange issued the write, with the frame bytes written. -/
def roundWrites (command : Nat) (payload : List Nat) (expLen maxRetries : Nat)
    (addrs : List Nat) (env : Nat → Nat → Option (List Nat)) :
    List (Nat × List Nat) :=
  match addrs with
  | [] => []
  | a :: rest =>
    ((RequestCycle.execute a command payload expLen maxRetries (env a)).2).map
        (fun f => (a, f)) ++
      roundWrites command payload expLen maxRetries rest env

/-! ## Admin page (embedded from `admin/admin.js`)

The admin page script declares `namespace = 'omnicomm-lls.' + instance`
and `namespaceLen = namespace.length`, a `load(settings, onChange)`
entry point that guards on `if (!settings) return;` before touching any
`.value` DOM element, and `sockets()` handlers for `stateChange` /
`objectChange` events that return early when the event id's first
`namespaceLen` characters differ from the namespace. -/

namespace Admin

/-- A value looked up as `settings[id]` on the page. -/
inductive SettingVal where
  | bool (x : Bool)
  | str (x : String)
deriving DecidableEq, Repr

/-- JavaScript truthiness of a setting value, as used by
`$key.prop('checked', settings[id])`. -/
def SettingVal.truthy : SettingVal → Bool
  | .bool x => x
  | .str x => x ≠ ""

/-- String coercion of a setting value, as used by
`$key.val(settings[id])`. -/
def SettingVal.asString : SettingVal → String
  | .bool x => if x then "true" else "false"
  | .str x => x

/-- One DOM element of class `.value` on the admin page: its `id`
attribute, its `type` attribute, its current checked flag and value, and
the number of `change` / `keyup` handlers registered on it. -/
structure PageElement where
  elemId : String
  typeAttr : String
  checked : Bool
  val : String
  changeHandlers : Nat
  keyupHandlers : Nat
deriving DecidableEq, Repr

/-- Observable outcome of a `load(settings, onChange)` call: the
`.value` elements after the call, how many times `onChange` was invoked
directly, whether the serial-port list was requested via
`sendTo(..., 'getSerialPorts', ...)`, and whether
`M.updateTextFields()` ran. -/
structure LoadResult where
  elements : List PageElement
  onChangeCalls : Nat
  serialPortsRequested : Bool
  textFieldsUpdated : Bool
deriving DecidableEq, Repr

/-- Embedded from `admin/admin.js` lines 7-27.  `load` returns at once
when `settings` is null/undefined (`if (!settings) return;`); otherwise
for each `.value` element it writes the setting into the element
(`prop('checked', ...)` for checkboxes, `val(...)` otherwise), registers
a `change` handler (plus a `keyup` handler for non-checkboxes), then
requests the serial-port list, invokes `onChange(false)` once, and
updates the text fields. -/
def load (settings : Option (String → SettingVal))
    (elements : List PageElement) : LoadResult :=
  match settings with
  | none =>
    { elements := elements, onChangeCalls := 0,
      serialPortsRequested := false, textFieldsUpdated := false }
  | some s =>
    { elements := elements.map (fun e =>
        if e.typeAttr = "checkbox" then
          { e with checked := (s e.elemId).truthy,
                   changeHandlers := e.changeHandlers + 1 }
        else
          { e with val := (s e.elemId).asString,
                   changeHandlers := e.changeHandlers + 1,
                   keyupHandlers := e.keyupHandlers + 1 }),
      onChangeCalls := 1,
      serialPortsRequested := true,
      textFieldsUpdated := true }

/-- Admin-page state visible to the socket handlers installed by
`sockets()`: the script's module-level bindings and the page elements. -/
structure AdminState where
  options : List (String × SettingVal)
  serialPorts : List String
  language : String
  elements : List PageElement
deriving DecidableEq, Repr

/-- Embedded from `admin/admin.js` line 1: the namespace string
`'omnicomm-lls.' + instance`. -/
def namespaceOf (inst : String) : String := "omnicomm-lls." ++ inst

/-- Embedded from `admin/admin.js` lines 72-77: the `stateChange`
handler returns early when `id.substring(0, namespaceLen) !== namespace`;
when the prefix matches, its `if (state){ }` body is empty, so it
changes nothing either way. -/
def stateChangeHandler (inst id : String) (state : Option SettingVal)
    (st : AdminState) : AdminState :=
  if (id.take (namespaceOf inst).length) ≠ namespaceOf inst then st
  else
    match state with
    | some _ => st
    | none => st

/-- A delivered `objectChange` payload: the object's `type` field and its
`common.type` field. -/
structure ChangedObject where
  objType : String
  commonType : String
deriving DecidableEq, Repr

/-- Embedded from `admin/admin.js` lines 78-83: the `objectChange`
handler returns early when `id.substring(0, namespaceLen) !== namespace`;
when the prefix matches, the body of
`if (obj && obj.type == 'device' && obj.common.type !== 'group')` is
empty, so it changes nothing either way. -/
def objectChangeHandler (inst id : String) (obj : Option ChangedObject)
    (st : AdminState) : AdminState :=
  if (id.take (namespaceOf inst).length) ≠ namespaceOf inst then st
  else
    match obj with
    | some o =>
      if o.objType = "device" ∧ o.commonType ≠ "group" then st else st
    | none => st


end Admin

/-! ## Frame-level helper lemmas -/

theorem commandSchema_some_inv {c : Nat} {r : Nat × Nat}
    (h : commandSchema c = some r) : c = 3 ∧ r = (2, 3) := by
  unfold commandSchema at h
  split at h
  · next hc => exact ⟨hc, by simpa using h.symm⟩
  · simp at h

theorem encodeRequest_ok_elim {a c : Nat} {p frame : List Nat}
    (h : encodeRequest a c p = .ok frame) :
    frame = a :: c :: (p ++
      [crc16 (a :: c :: p) % 256, crc16 (a :: c :: p) / 256]) := by
  unfold encodeRequest at h
  split at h
  · simp at h
  · split at h
    · simp at h
    · split at h
      · simp at h
      · simp only [Except.ok.injEq] at h
        rw [← h]
        simp

theorem frame_getD_lo (a c x y : Nat) (p : List Nat) :
    (a :: c :: (p ++ [x, y])).getD (p.length + 2) 0 = x := by
  rw [show p.length + 2 = p.length + 1 + 1 from rfl, List.getD_cons_succ,
    List.getD_cons_succ, List.getD_append_right p [x, y] 0 p.length (le_refl _)]
  simp

theorem frame_getD_hi (a c x y : Nat) (p : List Nat) :
    (a :: c :: (p ++ [x, y])).getD (p.length + 3) 0 = y := by
  rw [show p.length + 3 = p.length + 1 + 1 + 1 from rfl, List.getD_cons_succ,
    List.getD_cons_succ,
    List.getD_append_right p [x, y] 0 (p.length + 1) (by omega)]
  have : p.length + 1 - p.length = 1 := by omega
  rw [this]
  simp

theorem frame_take_body (a c x y : Nat) (p : List Nat) :
    (a :: c :: (p ++ [x, y])).take (p.length + 2) = a :: c :: p := by
  rw [show p.length + 2 = p.length + 1 + 1 from rfl, List.take_succ_cons,
    List.take_succ_cons, List.take_left' rfl]

/-- Decoding a structurally well-formed frame whose address and command
echo match reduces to the checksum comparison. -/
theorem tryDecode_frame_eq (a c x y : Nat) (p : List Nat) :
    tryDecodeResponse a c p.length (a :: c :: (p ++ [x, y])) =
    if x + 256 * y = crc16 (a :: c :: p) then .ok ⟨a, c, p⟩ (p.length + 4)
    else .checksumFailure := by
  have hlen : (a :: c :: (p ++ [x, y])).length = p.length + 4 := by simp
  unfold tryDecodeResponse
  rw [hlen, if_neg (by omega), List.getD_cons_zero, if_neg (by simp),
    show ((a :: c :: (p ++ [x, y])).getD 1 0) = c from rfl, if_neg (by simp),
    frame_getD_lo, frame_getD_hi, frame_take_body]
  have hdrop : ((a :: c :: (p ++ [x, y])).drop 2).take p.length = p := by
    show (p ++ [x, y]).take p.length = p
    exact List.take_left' rfl
  rw [hdrop]
  by_cases h : x + 256 * y = crc16 (a :: c :: p)
  · rw [if_neg (by omega), if_pos h]
  · rw [if_pos (by omega), if_neg h]

theorem flipBit_ne (x j : Nat) : flipBit x j ≠ x := by
  unfold flipBit
  intro h
  have h2 := congrArg (fun y => x ^^^ y) h
  simp only [← Nat.xor_assoc, Nat.xor_self, Nat.zero_xor] at h2
  exact (Nat.two_pow_pos j).ne' h2

theorem flipBit_lt {x : Nat} (hx : x < 256) {j : Nat} (hj : j < 8) :
    flipBit x j < 256 := by
  have h1 : x < 2 ^ 8 := by norm_num; omega
  have h2 : (2 : Nat) ^ j < 2 ^ 8 := by
    have := Nat.pow_le_pow_right (show 2 > 0 by norm_num) (show j ≤ 7 by omega)
    norm_num at this ⊢
    omega
  have := Nat.xor_lt_two_pow h1 h2
  unfold flipBit
  norm_num at this ⊢
  exact this

/-! ## Claim theorems -/

/-- C1: for every valid triple (address, command, payload) within the
command's schema bounds — i.e. whenever `encodeRequest` succeeds —
decoding the loopback-echoed frame produced by `encodeRequest` yields
exactly the original payload (decode after encode is the identity on
the payload; the echoed frame's checksum is intact by construction). -/
theorem C1_decode_after_encode_roundtrip (a c : Nat) (p frame : List Nat)
    (henc : encodeRequest a c p = .ok frame) :
    tryDecodeResponse a c p.length frame = .ok ⟨a, c, p⟩ (p.length + 4) := by
  rw [encodeRequest_ok_elim henc, tryDecode_frame_eq,
    if_pos (Nat.mod_add_div (crc16 (a :: c :: p)) 256)]

theorem C1_witness :
    tryDecodeResponse 1 3 2 [1, 3, 0, 0, 241, 216] = .ok ⟨1, 3, [0, 0]⟩ 6 :=
  C1_decode_after_encode_roundtrip 1 3 [0, 0] [1, 3, 0, 0, 241, 216] (by rfl)

/-- C2: every RequestFrame built by `encodeRequest` is bit-exactly
`[address:1][command:1][payload:0..N][checksum:2]`: for valid inputs the
result is the address byte, then the command byte, then the payload
bytes, then two checksum bytes `lo, hi` appended low byte first whose
recombination `lo + 256*hi` is the CRC-16 computed over all bytes
preceding the checksum field. -/
theorem C2_wire_format (a c : Nat) (p : List Nat) (r : Nat × Nat)
    (ha1 : 1 ≤ a) (ha2 : a ≤ 247) (hc : commandSchema c = some r)
    (hp : p.length = r.1) (hbytes : ∀ x ∈ p, x < 256) :
    ∃ lo hi,
      encodeRequest a c p = .ok (a :: c :: (p ++ [lo, hi])) ∧
      lo < 256 ∧ hi < 256 ∧
      lo + 256 * hi = crc16 ((a :: c :: (p ++ [lo, hi])).take (p.length + 2)) ∧
      (a :: c :: (p ++ [lo, hi])).length = p.length + 4 := by
  obtain ⟨hc3, hr⟩ := commandSchema_some_inv hc
  subst hc3
  subst hr
  have hcrc : crc16 (a :: 3 :: p) < 65536 := by
    apply crc16_lt
    intro b hb
    rcases List.mem_cons.mp hb with rfl | hb2
    · omega
    rcases List.mem_cons.mp hb2 with rfl | hb3
    · omega
    · exact hbytes b hb3
  refine ⟨crc16 (a :: 3 :: p) % 256, crc16 (a :: 3 :: p) / 256, ?_, ?_, ?_, ?_, ?_⟩
  · unfold encodeRequest
    rw [if_neg (by omega)]
    show (if p.length ≠ (2 : Nat) then Except.error EncodingError.payloadSizeMismatch
      else Except.ok (a :: 3 :: p ++
        [crc16 (a :: 3 :: p) % 256, crc16 (a :: 3 :: p) / 256])) = _
    rw [if_neg (by simp at hp ⊢; omega)]
    simp
  · exact Nat.mod_lt _ (by norm_num)
  · omega
  · rw [frame_take_body]
    exact (Nat.mod_add_div (crc16 (a :: 3 :: p)) 256).symm ▸ rfl
  · simp

theorem C2_witness :
    ∃ lo hi,
      encodeRequest 1 3 [0, 0] = .ok (1 :: 3 :: ([0, 0] ++ [lo, hi])) ∧
      lo < 256 ∧ hi < 256 ∧
      lo + 256 * hi =
        crc16 ((1 :: 3 :: ([0, 0] ++ [lo, hi])).take (([0, 0] : List Nat).length + 2)) ∧
      (1 :: 3 :: ([0, 0] ++ [lo, hi])).length = ([0, 0] : List Nat).length + 4 :=
  C2_wire_format 1 3 [0, 0] (2, 3) (by decide) (by decide) (by rfl) (by rfl)
    (by decide)

/-- C4 counterexample: a buffer whose leading address byte (0x02)
differs from the request's address (0x01) but which is shorter than the
minimum frame size decodes to `incomplete`, not `addressMismatch` — the
completeness check runs before the address check ("if fewer bytes than
the minimum frame size are present, signal Incomplete"). -/
theorem C4_counterexample :
    ([2] : List Nat).getD 0 0 ≠ 1 ∧
    tryDecodeResponse 1 3 2 [2] = .incomplete ∧
    tryDecodeResponse 1 3 2 [2] ≠ .addressMismatch := by decide

/-- C4 amended: for every response buffer holding at least a full
frame's worth of bytes whose leading address byte differs from the
address the request was sent to, `tryDecodeResponse` returns
`addressMismatch`; and a buffer with a differing leading byte never
yields a validated frame, whatever its length. -/
theorem C4_address_mismatch (expAddr expCmd expLen : Nat) (buffer : List Nat)
    (hne : buffer.getD 0 0 ≠ expAddr) :
    (expLen + 4 ≤ buffer.length →
      tryDecodeResponse expAddr expCmd expLen buffer = .addressMismatch) ∧
    ∀ f k, tryDecodeResponse expAddr expCmd expLen buffer ≠ .ok f k := by
  unfold tryDecodeResponse
  constructor
  · intro hlen
    rw [if_neg (by omega), if_pos hne]
  · intro f k
    by_cases h1 : buffer.length < expLen + 4
    · rw [if_pos h1]
      simp
    · rw [if_neg h1, if_pos hne]
      simp

theorem C4_witness :
    tryDecodeResponse 1 3 2 [2, 3, 0, 0, 241, 216] = .addressMismatch :=
  (C4_address_mismatch 1 3 2 [2, 3, 0, 0, 241, 216] (by decide)).1 (by decide)

/-- C8: with a command of the protocol's fixed set, `encodeRequest`
fails with an `EncodingError` exactly when the address is outside
[1,247] or the payload length does not match the command's fixed
schema, and succeeds (produces a frame) exactly otherwise. -/
theorem C8_encode_validation (a c : Nat) (p : List Nat) (r : Nat × Nat)
    (hc : commandSchema c = some r) :
    ((∃ e, encodeRequest a c p = .error e) ↔
      (a < 1 ∨ 247 < a ∨ p.length ≠ r.1)) ∧
    ((∃ frame, encodeRequest a c p = .ok frame) ↔
      (1 ≤ a ∧ a ≤ 247 ∧ p.length = r.1)) := by
  obtain ⟨hc3, hr⟩ := commandSchema_some_inv hc
  subst hc3
  subst hr
  have hok : ¬(a < 1 ∨ 247 < a) → p.length = 2 →
      ∃ frame, encodeRequest a 3 p = .ok frame := by
    intro ha hp
    refine ⟨a :: 3 :: p ++
      [crc16 (a :: 3 :: p) % 256, crc16 (a :: 3 :: p) / 256], ?_⟩
    unfold encodeRequest
    rw [if_neg ha]
    show (if p.length ≠ (2 : Nat) then Except.error EncodingError.payloadSizeMismatch
      else Except.ok (a :: 3 :: p ++
        [crc16 (a :: 3 :: p) % 256, crc16 (a :: 3 :: p) / 256])) = _
    rw [if_neg (by omega)]
  have herr : (a < 1 ∨ 247 < a ∨ p.length ≠ 2) →
      ∃ e, encodeRequest a 3 p = .error e := by
    intro h
    unfold encodeRequest
    by_cases h1 : a < 1 ∨ 247 < a
    · rw [if_pos h1]
      exact ⟨_, rfl⟩
    · rw [if_neg h1]
      show ∃ e, (if p.length ≠ (2 : Nat) then
          Except.error EncodingError.payloadSizeMismatch
        else Except.ok (a :: 3 :: p ++
          [crc16 (a :: 3 :: p) % 256, crc16 (a :: 3 :: p) / 256])) = .error e
      rw [if_pos (by omega)]
      exact ⟨_, rfl⟩
  constructor
  · constructor
    · rintro ⟨e, he⟩
      by_contra hcon
      push_neg at hcon
      obtain ⟨frame, hf⟩ := hok (by omega) hcon.2.2
      rw [hf] at he
      simp at he
    · intro h
      exact herr (by simpa using h)
  · constructor
    · rintro ⟨frame, hf⟩
      by_contra hcon
      have : a < 1 ∨ 247 < a ∨ p.length ≠ 2 := by
        simp at hcon ⊢
        omega
      obtain ⟨e, he⟩ := herr this
      rw [he] at hf
      simp at hf
    · rintro ⟨h1, h2, h3⟩
      exact hok (by omega) (by simpa using h3)

theorem C8_witness :
    (∃ e, encodeRequest 300 3 [0, 0] = .error e) ∧
    (∃ frame, encodeRequest 1 3 [0, 0] = .ok frame) :=
  ⟨(C8_encode_validation 300 3 [0, 0] (2, 3) (by rfl)).1.mpr
      (by decide),
    (C8_encode_validation 1 3 [0, 0] (2, 3) (by rfl)).2.mpr
      (by decide)⟩

/-- C9: when `settings` is null or undefined (`if (!settings) return;`),
`load` returns immediately: the `.value` elements are untouched (so no
DOM mutation and no change/keyup handler registration), the serial-port
list is not requested, and `onChange` is never invoked. -/
theorem C9_load_null_returns (elements : List Admin.PageElement) :
    Admin.load none elements =
      { elements := elements, onChangeCalls := 0,
        serialPortsRequested := false, textFieldsUpdated := false } := rfl

/-- C10: for every `stateChange` or `objectChange` event delivered to
the handlers installed by `sockets()`, if the event id's first
`namespaceLen` characters differ from `'omnicomm-lls.' + instance`, the
handler returns without performing any action, leaving the admin-page
state unchanged. -/
theorem C10_namespace_guard (inst id : String)
    (state : Option Admin.SettingVal) (obj : Option Admin.ChangedObject)
    (st : Admin.AdminState)
    (hne : id.take (Admin.namespaceOf inst).length ≠ Admin.namespaceOf inst) :
    Admin.stateChangeHandler inst id state st = st ∧
    Admin.objectChangeHandler inst id obj st = st := by
  unfold Admin.stateChangeHandler Admin.objectChangeHandler
  rw [if_pos hne, if_pos hne]
  exact ⟨rfl, rfl⟩

theorem C10_witness :
    Admin.stateChangeHandler "0" "hm-rpc.0.info.connection" none
        ⟨[], [], "en", []⟩ = ⟨[], [], "en", []⟩ ∧
    Admin.objectChangeHandler "0" "hm-rpc.0.info.connection" none
        ⟨[], [], "en", []⟩ = ⟨[], [], "en", []⟩ :=
  C10_namespace_guard "0" "hm-rpc.0.info.connection" none none
    ⟨[], [], "en", []⟩ (by decide)

/-- C5: for every configured address list and every poll round, the
scheduler reports exactly one `PollCycleResult` per configured address,
in configured order (`map Prod.fst` of the round is the address list
itself), and each address's reported result is its own exchange's
outcome — so one address's failure (timeout, checksum, mismatch) never
aborts the round or silences the remaining addresses. -/
theorem C5_round_failure_isolation (command : Nat) (payload : List Nat)
    (expLen maxRetries : Nat) (addrs : List Nat)
    (env : Nat → Nat → Option (List Nat)) :
    (pollRound command payload expLen maxRetries addrs env).map Prod.fst =
      addrs ∧
    ∀ a ∈ addrs,
      (a, (RequestCycle.execute a command payload expLen maxRetries (env a)).1) ∈
        pollRound command payload expLen maxRetries addrs env := by
  induction addrs with
  | nil => exact ⟨rfl, by simp⟩
  | cons x xs ih =>
    constructor
    · simp only [pollRound, List.map_cons, ih.1]
    · intro a ha
      rcases List.mem_cons.mp ha with rfl | h
      · simp only [pollRound]
        exact List.mem_cons_self _ _
      · simp only [pollRound]
        exact List.mem_cons_of_mem _ (ih.2 a h)

/-- Lemma: when no bytes ever arrive, every attempt of the request
cycle times out and re-sends the same frame; the loop reports a timeout
and has written `remaining + 1` identical copies of the frame. -/
theorem executeAttempts_all_timeout (expAddr expCmd expLen : Nat)
    (frame : List Nat) (arrivals : Nat → Option (List Nat))
    (hnone : ∀ n, arrivals n = none) :
    ∀ remaining attempt mismatchSeen,
      executeAttempts expAddr expCmd expLen frame arrivals attempt remaining
          mismatchSeen =
        (.failure .timedOut, List.replicate (remaining + 1) frame) := by
  intro remaining
  induction remaining with
  | zero =>
    intro attempt mismatchSeen
    simp [executeAttempts, hnone, classifyWindow, List.replicate]
  | succ r ih =>
    intro attempt mismatchSeen
    simp [executeAttempts, hnone, classifyWindow, ih, List.replicate]

/-- C6: for every exchange in which no bytes arrive within the response
timeout (every receive window is empty), `RequestCycle.execute`
resolves to `timedOut`, and each of the `maxRetries` retries re-sends a
request frame byte-identical to the original: the write trace is
exactly `maxRetries + 1` copies of the encoded frame. -/
theorem C6_timeout_resend_identical (address command : Nat)
    (payload frame : List Nat) (expLen maxRetries : Nat)
    (arrivals : Nat → Option (List Nat))
    (henc : encodeRequest address command payload = .ok frame)
    (hnone : ∀ n, arrivals n = none) :
    RequestCycle.execute address command payload expLen maxRetries arrivals =
      (.failure .timedOut, List.replicate (maxRetries + 1) frame) := by
  unfold RequestCycle.execute
  rw [henc]
  exact executeAttempts_all_timeout address command expLen frame arrivals
    hnone maxRetries 0 false

theorem C6_witness :
    RequestCycle.execute 1 3 [0, 0] 3 2 (fun _ => none) =
      (.failure .timedOut, List.replicate 3 [1, 3, 0, 0, 241, 216]) :=
  C6_timeout_resend_identical 1 3 [0, 0] [1, 3, 0, 0, 241, 216] 3 2
    (fun _ => none) (by rfl) (fun _ => rfl)

/-- Lemma: every write event of a round is owned by a configured
address. -/
theorem roundWrites_owner_mem (command : Nat) (payload : List Nat)
    (expLen maxRetries : Nat) :
    ∀ (addrs : List Nat) (env : Nat → Nat → Option (List Nat))
      (e : Nat × List Nat),
      e ∈ roundWrites command payload expLen maxRetries addrs env →
      e.1 ∈ addrs := by
  intro addrs
  induction addrs with
  | nil =>
    intro env e he
    simp [roundWrites] at he
  | cons x xs ih =>
    intro env e he
    simp only [roundWrites, List.mem_append] at he
    rcases he with h | h
    · obtain ⟨f, _, rfl⟩ := List.mem_map.mp h
      exact List.mem_cons_self _ _
    · exact List.mem_cons_of_mem _ (ih env e h)

/-- C7: within every poll round the configured addresses own the bus
sequentially in exactly the configured order and no two exchanges
interleave: (i) the chronological owner sequence of the round's write
trace is one contiguous block per address, blocks following the
configured order; (ii) for each configured address, all of its write
events form one contiguous segment of the trace, with no event of that
address before or after the segment. -/
theorem C7_sequential_no_interleave (command : Nat) (payload : List Nat)
    (expLen maxRetries : Nat) (addrs : List Nat)
    (env : Nat → Nat → Option (List Nat)) (hnd : addrs.Nodup) :
    (roundWrites command payload expLen maxRetries addrs env).map Prod.fst =
      addrs.flatMap (fun a =>
        List.replicate
          (RequestCycle.execute a command payload expLen maxRetries
            (env a)).2.length a) ∧
    ∀ a ∈ addrs, ∃ pre post,
      roundWrites command payload expLen maxRetries addrs env =
        pre ++ (roundWrites command payload expLen maxRetries addrs env).filter
          (fun e => e.1 == a) ++ post ∧
      (∀ e ∈ pre, e.1 ≠ a) ∧ (∀ e ∈ post, e.1 ≠ a) := by
  induction addrs with
  | nil => simp [roundWrites]
  | cons x xs ih =>
    obtain ⟨hx, hxs⟩ := List.nodup_cons.mp hnd
    obtain ⟨ih1, ih2⟩ := ih hxs
    constructor
    · simp only [roundWrites, List.map_append, List.map_map, List.flatMap_cons,
        ih1]
      congr 1
      simp [Function.comp, List.map_const']
    · intro a ha
      have hblock_fst : ∀ e ∈ (List.map (fun f => (x, f))
          (RequestCycle.execute x command payload expLen maxRetries
            (env x)).2), e.1 = x := by
        intro e he
        obtain ⟨f, _, rfl⟩ := List.mem_map.mp he
        rfl
      rcases List.mem_cons.mp ha with rfl | hmem
      · refine ⟨[], roundWrites command payload expLen maxRetries xs env,
          ?_, by simp, ?_⟩
        · have hfilter_block : (List.map (fun f => (a, f))
              (RequestCycle.execute a command payload expLen maxRetries
                (env a)).2).filter (fun e => e.1 == a) =
              List.map (fun f => (a, f))
                (RequestCycle.execute a command payload expLen maxRetries
                  (env a)).2 := by
            rw [List.filter_eq_self]
            intro e he
            rw [hblock_fst e he]
            simp
          have hfilter_rest : (roundWrites command payload expLen maxRetries
              xs env).filter (fun e => e.1 == a) = [] := by
            rw [List.filter_eq_nil_iff]
            intro e he
            have := roundWrites_owner_mem command payload expLen maxRetries
              xs env e he
            intro hb
            simp only [beq_iff_eq] at hb
            rw [hb] at this
            exact hx this
          simp only [roundWrites, List.filter_append, hfilter_block,
            hfilter_rest, List.append_nil, List.nil_append]
        · intro e he
          have := roundWrites_owner_mem command payload expLen maxRetries
            xs env e he
          intro hb
          rw [hb] at this
          exact hx this
      · obtain ⟨pre, post, heq, hpre, hpost⟩ := ih2 a hmem
        have hax : a ≠ x := by
          intro h
          rw [h] at hmem
          exact hx hmem
        refine ⟨(List.map (fun f => (x, f))
            (RequestCycle.execute x command payload expLen maxRetries
              (env x)).2) ++ pre, post, ?_, ?_, hpost⟩
        · have hfilter_block : (List.map (fun f => (x, f))
              (RequestCycle.execute x command payload expLen maxRetries
                (env x)).2).filter (fun e => e.1 == a) = [] := by
            rw [List.filter_eq_nil_iff]
            intro e he
            rw [hblock_fst e he]
            intro hb
            simp only [beq_iff_eq] at hb
            exact hax hb.symm
          simp only [roundWrites, List.filter_append, hfilter_block,
            List.nil_append]
          conv_lhs => rw [heq]
          simp [List.append_assoc]
        · intro e he
          rcases List.mem_append.mp he with h | h
          · rw [hblock_fst e h]
            exact fun hb => hax hb.symm
          · exact hpre e h

theorem C7_witness :
    (roundWrites 3 [0, 0] 3 0 [1, 2, 3] (fun _ _ => none)).map Prod.fst =
      ([1, 2, 3] : List Nat).flatMap (fun a =>
        List.replicate
          (RequestCycle.execute a 3 [0, 0] 3 0 (fun _ => none)).2.length a) :=
  (C7_sequential_no_interleave 3 [0, 0] 3 0 [1, 2, 3] (fun _ _ => none)
    (by decide)).1

/-- C3 counterexample: `[1, 3, 0, 0, 241, 216]` is a valid frame
accepted by `tryDecodeResponse`, yet altering its first byte (the
address byte) yields `addressMismatch` at every one of the eight bit
positions — never `checksumFailure` — because the address check runs
before the checksum check. -/
theorem C3_counterexample :
    tryDecodeResponse 1 3 2 [1, 3, 0, 0, 241, 216] = .ok ⟨1, 3, [0, 0]⟩ 6 ∧
    ∀ j, j < 8 →
      tryDecodeResponse 1 3 2 (([1, 3, 0, 0, 241, 216] : List Nat).set 0
        (flipBit 1 j)) = .addressMismatch ∧
      tryDecodeResponse 1 3 2 (([1, 3, 0, 0, 241, 216] : List Nat).set 0
        (flipBit 1 j)) ≠ .checksumFailure := by decide

/-- C3 amended: for every valid frame accepted by `tryDecodeResponse`
(structurally `[a][c][payload][lo][hi]` of bytes with intact checksum),
altering any single byte at a payload or checksum position (index ≥ 2)
makes `tryDecodeResponse` return `checksumFailure` at every — in
particular at least one — altered bit position within that byte;
altering the address byte instead yields `addressMismatch` and altering
the command byte yields `unexpectedCommand`. -/
theorem C3_single_flip_detection (a c lo hi : Nat) (p : List Nat)
    (ha : a < 256) (hc : c < 256) (hp : ∀ x ∈ p, x < 256)
    (hlo : lo < 256) (hhi : hi < 256)
    (hsum : lo + 256 * hi = crc16 (a :: c :: p)) :
    ∀ j < 8,
      (∀ i, 2 ≤ i → i < p.length + 4 →
        tryDecodeResponse a c p.length
          ((a :: c :: (p ++ [lo, hi])).set i
            (flipBit ((a :: c :: (p ++ [lo, hi])).getD i 0) j)) =
          .checksumFailure) ∧
      tryDecodeResponse a c p.length
        ((a :: c :: (p ++ [lo, hi])).set 0
          (flipBit ((a :: c :: (p ++ [lo, hi])).getD 0 0) j)) =
        .addressMismatch ∧
      tryDecodeResponse a c p.length
        ((a :: c :: (p ++ [lo, hi])).set 1
          (flipBit ((a :: c :: (p ++ [lo, hi])).getD 1 0) j)) =
        .unexpectedCommand := by
  intro j hj
  refine ⟨?_, ?_, ?_⟩
  · intro i h2 h4
    obtain ⟨k, rfl⟩ : ∃ k, i = k + 2 := ⟨i - 2, by omega⟩
    have hgetD : (a :: c :: (p ++ [lo, hi])).getD (k + 2) 0 =
        (p ++ [lo, hi]).getD k 0 := by
      rw [show k + 2 = k + 1 + 1 from rfl, List.getD_cons_succ,
        List.getD_cons_succ]
    have hset : ∀ v, (a :: c :: (p ++ [lo, hi])).set (k + 2) v =
        a :: c :: ((p ++ [lo, hi]).set k v) := by
      intro v
      rw [show k + 2 = k + 1 + 1 from rfl, List.set_cons_succ,
        List.set_cons_succ]
    rw [hgetD, hset]
    rcases Nat.lt_trichotomy k p.length with hk | hk | hk
    · -- payload byte
      have hgd : (p ++ [lo, hi]).getD k 0 = p.getD k 0 :=
        List.getD_append p [lo, hi] 0 k hk
      have hge : p.getD k 0 = p[k] := List.getD_eq_getElem p 0 hk
      rw [hgd, hge]
      have hsa : (p ++ [lo, hi]).set k (flipBit p[k] j) =
          p.set k (flipBit p[k] j) ++ [lo, hi] := by
        rw [List.set_append, if_pos hk]
      rw [hsa,
        show p.length = (p.set k (flipBit p[k] j)).length from
          (List.length_set p k (flipBit p[k] j)).symm,
        tryDecode_frame_eq]
      have hdecomp1 : a :: c :: p =
          (a :: c :: p.take k) ++ (p[k] :: p.drop (k + 1)) := by
        rw [List.getElem_cons_drop p k hk]
        simp [List.take_append_drop]
      have hdecomp2 : a :: c :: p.set k (flipBit p[k] j) =
          (a :: c :: p.take k) ++ (flipBit p[k] j :: p.drop (k + 1)) := by
        rw [List.set_eq_take_cons_drop (flipBit p[k] j) hk]
        simp
      have hbk : p[k] < 256 := hp _ (List.getElem_mem hk)
      have hne : ¬(lo + 256 * hi =
          crc16 (a :: c :: p.set k (flipBit p[k] j))) := by
        rw [hsum, hdecomp1, hdecomp2]
        apply crc16_ne_of_byte_ne
        · intro x hx
          rcases List.mem_cons.mp hx with rfl | hx2
          · exact ha
          rcases List.mem_cons.mp hx2 with rfl | hx3
          · exact hc
          · exact hp x (List.mem_of_mem_take hx3)
        · exact fun x hx => hp x (List.mem_of_mem_drop hx)
        · exact hbk
        · exact flipBit_lt hbk hj
        · exact (flipBit_ne p[k] j).symm
      rw [if_neg hne]
    · -- low checksum byte
      subst hk
      have hgd : (p ++ [lo, hi]).getD p.length 0 = lo := by
        rw [List.getD_append_right p [lo, hi] 0 p.length (le_refl _),
          Nat.sub_self]
        rfl
      rw [hgd]
      have hsa : (p ++ [lo, hi]).set p.length (flipBit lo j) =
          p ++ [flipBit lo j, hi] := by
        rw [List.set_append, if_neg (by omega), Nat.sub_self]
        rfl
      rw [hsa, tryDecode_frame_eq]
      have hne : ¬(flipBit lo j + 256 * hi = crc16 (a :: c :: p)) := by
        have := flipBit_ne lo j
        omega
      rw [if_neg hne]
    · -- high checksum byte
      have hk' : k = p.length + 1 := by omega
      subst hk'
      have hgd : (p ++ [lo, hi]).getD (p.length + 1) 0 = hi := by
        rw [List.getD_append_right p [lo, hi] 0 (p.length + 1) (by omega),
          show p.length + 1 - p.length = 1 from by omega]
        rfl
      rw [hgd]
      have hsa : (p ++ [lo, hi]).set (p.length + 1) (flipBit hi j) =
          p ++ [lo, flipBit hi j] := by
        rw [List.set_append, if_neg (by omega),
          show p.length + 1 - p.length = 1 from by omega]
        rfl
      rw [hsa, tryDecode_frame_eq]
      have hne : ¬(lo + 256 * flipBit hi j = crc16 (a :: c :: p)) := by
        have := flipBit_ne hi j
        omega
      rw [if_neg hne]
  · -- address byte: the address check fires first
    show tryDecodeResponse a c p.length
      (flipBit a j :: c :: (p ++ [lo, hi])) = .addressMismatch
    unfold tryDecodeResponse
    have hlen2 : (flipBit a j :: c :: (p ++ [lo, hi])).length =
        p.length + 4 := by simp
    rw [hlen2, if_neg (by omega), List.getD_cons_zero,
      if_pos (flipBit_ne a j)]
  · -- command byte: the command-echo check fires
    show tryDecodeResponse a c p.length
      (a :: flipBit c j :: (p ++ [lo, hi])) = .unexpectedCommand
    unfold tryDecodeResponse
    have hlen2 : (a :: flipBit c j :: (p ++ [lo, hi])).length =
        p.length + 4 := by simp
    rw [hlen2, if_neg (by omega), List.getD_cons_zero, if_neg (by simp),
      show (a :: flipBit c j :: (p ++ [lo, hi])).getD 1 0 =
        flipBit c j from rfl,
      if_pos (flipBit_ne c j)]

theorem C3_witness :
    tryDecodeResponse 1 3 2
      ((1 :: 3 :: ([0, 0] ++ [241, 216])).set 2
        (flipBit ((1 :: 3 :: ([0, 0] ++ [241, 216])).getD 2 0) 0)) =
      .checksumFailure :=
  (C3_single_flip_detection 1 3 241 216 [0, 0] (by decide) (by decide)
    (by decide) (by decide) (by decide) (by decide) 0 (by decide)).1
    2 (by decide) (by decide)
